import Mathlib

/-!
Verification of the vulkanRenderSystem repository's core algorithms: a shallow
embedding of the swapchain negotiation helpers, device selection, memory-type
selection, the frame scheduler's Update cycle and the teardown sequencer,
together with theorems settling the specification's claims about them.

Machine integers (`uint32` in the Go source) are modelled as `Nat`; the places
where 32-bit semantics matter (the `1 << i` shift in `findMemoryType`) carry an
explicit `% 2^32`.
-/

namespace VulkanRS

/-- `clamp` from `util.go`: clips `value` into `[low, high]`, applying the
upper bound first and the lower bound second, so `low` wins when `low > high`. -/
def clamp (high low value : Nat) : Nat :=
  let ret := if value > high then high else value
  if ret < low then low else ret

/-- 2D extent (`vk.Extent2D`), width and height in pixels. -/
structure Extent2D where
  width : Nat
  height : Nat
deriving DecidableEq, Repr

/-- The fields of `vk.SurfaceCapabilities` that the swapchain builder reads. -/
structure SurfaceCapabilities where
  currentExtent : Extent2D
  minImageExtent : Extent2D
  maxImageExtent : Extent2D
  minImageCount : Nat
  maxImageCount : Nat
deriving Repr

/-- The sentinel `vk.MaxUint32`: a surface reports this as its current width
when it has no definite current extent. -/
def maxUint32 : Nat := 4294967295

/-- `RenderSystem.chooseSwapExtent`: use the surface's current extent verbatim
when its width differs from the `maxUint32` sentinel; otherwise clamp the
drawable (canvas) size per axis into `[minImageExtent, maxImageExtent]`. -/
def chooseSwapExtent (caps : SurfaceCapabilities) (canvasW canvasH : Nat) : Extent2D :=
  if caps.currentExtent.width ≠ maxUint32 then caps.currentExtent
  else
    { width := clamp caps.maxImageExtent.width caps.minImageExtent.width canvasW
      height := clamp caps.maxImageExtent.height caps.minImageExtent.height canvasH }

/-- `vk.FormatUndefined`. -/
def FormatUndefined : Nat := 0

/-- `vk.FormatB8g8r8Unorm` (8-bit BGR). -/
def FormatB8g8r8Unorm : Nat := 30

/-- `vk.ColorSpaceSrgbNonlinear`. -/
def ColorSpaceSrgbNonlinear : Nat := 0

/-- A `vk.SurfaceFormat`: a pixel format paired with a color space. -/
structure SurfaceFormat where
  format : Nat
  colorSpace : Nat
deriving DecidableEq, Repr

/-- The fixed preferred surface format the builder falls back to and scans for:
8-bit BGR with sRGB non-linear color space. -/
def preferredSurfaceFormat : SurfaceFormat :=
  { format := FormatB8g8r8Unorm, colorSpace := ColorSpaceSrgbNonlinear }

/-- `RenderSystem.chooseSwapSurfaceFormat`: if exactly one format is reported
and it is undefined, return the preferred pair; otherwise return the first
occurrence of the preferred pair if any; otherwise the first reported format.
The Go code indexes `formats[0]` unconditionally at the end, so the empty list
(impossible after device selection, which requires a non-empty format list)
is modelled as `none`. -/
def chooseSwapSurfaceFormat (formats : List SurfaceFormat) : Option SurfaceFormat :=
  match formats with
  | [] => none
  | f0 :: rest =>
    if (f0 :: rest).length = 1 ∧ f0.format = FormatUndefined then
      some preferredSurfaceFormat
    else
      match (f0 :: rest).find? (fun f =>
          f.format == FormatB8g8r8Unorm && f.colorSpace == ColorSpaceSrgbNonlinear) with
      | some f => some f
      | none => some f0

/-- `vk.PresentModeImmediate`. -/
def PresentModeImmediate : Nat := 0

/-- `vk.PresentModeMailbox`. -/
def PresentModeMailbox : Nat := 1

/-- `vk.PresentModeFifo`. -/
def PresentModeFifo : Nat := 2

/-- The loop body of `RenderSystem.chooseSwapPresentMode`, carrying the
`bestMode` accumulator: return mailbox as soon as it is seen; remember
immediate in `bestMode`; return the accumulator when the list is exhausted. -/
def chooseSwapPresentModeAux (modes : List Nat) (bestMode : Nat) : Nat :=
  match modes with
  | [] => bestMode
  | p :: rest =>
    if p = PresentModeMailbox then p
    else if p = PresentModeImmediate then chooseSwapPresentModeAux rest p
    else chooseSwapPresentModeAux rest bestMode

/-- `RenderSystem.chooseSwapPresentMode`: scan the supported modes with
`bestMode` initialised to FIFO. -/
def chooseSwapPresentMode (modes : List Nat) : Nat :=
  chooseSwapPresentModeAux modes PresentModeFifo

/-- The requested image count computed in `RenderSystem.createSwapChain`:
`minImageCount + 1`, capped at `maxImageCount` when the latter is positive
(`0` meaning unbounded). -/
def swapImageCount (minImageCount maxImageCount : Nat) : Nat :=
  let imageCount := minImageCount + 1
  if maxImageCount > 0 then
    if imageCount > maxImageCount then maxImageCount else imageCount
  else imageCount

/-- One entry of a device's queue-family table: whether the family advertises
the graphics bit and whether it can present to the window surface. -/
structure QueueFamily where
  graphics : Bool
  present : Bool
deriving DecidableEq, Repr

/-- A physical device as seen by the selection loop in
`RenderSystem.initVulkan`: its queue families, its extension names, whether
the surface-capabilities query succeeds, and the reported surface formats and
present modes. -/
structure PhysicalDevice where
  queueFamilies : List QueueFamily
  extensions : List String
  capsOk : Bool
  formats : List SurfaceFormat
  presentModes : List Nat
deriving DecidableEq, Repr

/-- The required device extensions (`wantedExtensions` in `initVulkan`):
just the swapchain extension. -/
def wantedExtensions : List String := ["VK_KHR_swapchain"]

/-- One iteration of the `deviceLoop` in `initVulkan`: `true` when the device
survives every `continue`. The checks, in source order: non-empty queue-family
table; some family with the graphics bit and some family that can present;
non-empty extension list; every wanted extension present; the
surface-capabilities query succeeds; non-empty surface formats; non-empty
present modes. -/
def deviceSuitable (wanted : List String) (d : PhysicalDevice) : Bool :=
  if d.queueFamilies.length = 0 then false
  else if !(d.queueFamilies.any (·.graphics) && d.queueFamilies.any (·.present)) then false
  else if d.extensions.length = 0 then false
  else if !(wanted.all (fun req => d.extensions.any (· == req))) then false
  else if !d.capsOk then false
  else if d.formats.length = 0 then false
  else if d.presentModes.length = 0 then false
  else true

/-- The device-selection fold of `initVulkan`: every suitable device overwrites
`physicalDevice`, so the last suitable device in enumeration order wins;
`none` models the `failed to find a sutible GPU` error. -/
def selectDevice (wanted : List String) (devices : List PhysicalDevice) :
    Option PhysicalDevice :=
  devices.foldl (fun acc d => if deviceSuitable wanted d then some d else acc) none

/-- `RenderSystem.findMemoryType`'s loop from index `i`: the memory types are
the `PropertyFlags` words of `memProp.MemoryTypes`, in index order. A type
matches when bit `i` of `typeFilter` is set (the Go `1 << i` is a `uint32`
shift, hence the `% 2^32`) and its flags contain all requested `properties`. -/
def findMemoryTypeAux (memoryTypes : List Nat) (typeFilter properties i : Nat) :
    Option Nat :=
  match memoryTypes with
  | [] => none
  | flags :: rest =>
    if typeFilter &&& ((1 <<< i) % 4294967296) ≠ 0 ∧ flags &&& properties = properties
    then some i
    else findMemoryTypeAux rest typeFilter properties (i + 1)

/-- `RenderSystem.findMemoryType`: first matching index, counting from 0;
`none` models the `failed to find suitable memory type` error. -/
def findMemoryType (memoryTypes : List Nat) (typeFilter properties : Nat) : Option Nat :=
  findMemoryTypeAux memoryTypes typeFilter properties 0

/-- `maxFramesInFlight` from the source: the number of frame slots, N = 2. -/
def maxFramesInFlight : Nat := 2

/-- The observable actions of one `RenderSystem.Update` call, in the order the
Vulkan API calls are issued. `waitFences`, `resetFences` and `queueSubmit`
carry the frame-slot index whose fence they target (the Go code passes
`fenceCount = 1` and a slice whose data pointer is
`&r.inFlightFences[r.currentFrame]`). -/
inductive FrameEvent where
  | recreateSwapChain
  | waitFences (slot : Nat)
  | acquireImage (slot : Nat)
  | updateUniform (imageIndex : Nat)
  | resetFences (slot : Nat)
  | queueSubmit (slot : Nat)
  | queuePresent (imageIndex : Nat)
deriving DecidableEq, Repr

/-- The scheduler-relevant mutable state of `RenderSystem`: the resize flag
(set by the `WindowResizeMessage` listener under the lock), the round-robin
frame counter, and whether `startTime` has been set. -/
structure SchedulerState where
  framebufferResized : Bool
  currentFrame : Nat
  startTimeSet : Bool
deriving DecidableEq, Repr

/-- The `WindowResizeMessage` listener registered in `RenderSystem.New`:
it sets `framebufferResized` under the lock. -/
def notifyResize (s : SchedulerState) : SchedulerState :=
  { s with framebufferResized := true }

/-- The trace of the steady-state (no-resize) path of `RenderSystem.Update`:
wait on the current slot's fence, acquire an image with the slot's semaphore,
rewrite the uniform buffer of the acquired image, reset the slot's fence,
submit signalling that fence, present. `imageIndex` is the index the acquire
call reports. -/
def frameTrace (slot imageIndex : Nat) : List FrameEvent :=
  [FrameEvent.waitFences slot, FrameEvent.acquireImage slot,
   FrameEvent.updateUniform imageIndex, FrameEvent.resetFences slot,
   FrameEvent.queueSubmit slot, FrameEvent.queuePresent imageIndex]

/-- `RenderSystem.Update`: set `startTime` if unset; under the lock, when the
resize flag is up, recreate the swapchain once, clear the flag and return
(no acquire, no submit, no present, no frame advance); otherwise run the
steady-state cycle on slot `currentFrame` and advance the frame counter
modulo `maxFramesInFlight`. Acquire, submit and present are assumed to
succeed (the Go code panics otherwise), with `imageIndex` the acquired
image's index. -/
def update (s : SchedulerState) (imageIndex : Nat) :
    List FrameEvent × SchedulerState :=
  let s := { s with startTimeSet := true }
  if s.framebufferResized then
    ([FrameEvent.recreateSwapChain], { s with framebufferResized := false })
  else
    (frameTrace s.currentFrame imageIndex,
     { s with currentFrame := (s.currentFrame + 1) % maxFramesInFlight })

/-- A run of consecutive `Update` calls: returns the per-cycle traces in
order, along with the final state. Each element of `imageIndices` is the
image index reported by that cycle's acquire call. -/
def updateRun (s : SchedulerState) (imageIndices : List Nat) :
    List (List FrameEvent) × SchedulerState :=
  match imageIndices with
  | [] => ([], s)
  | i :: rest =>
    let r := update s i
    let rr := updateRun r.2 rest
    (r.1 :: rr.1, rr.2)

/-- In trace `t`, every fence reset and every submission referencing slot
`slot`'s fence is preceded by a wait on that slot's fence. -/
def waitsBeforeReuse (t : List FrameEvent) (slot : Nat) : Prop :=
  ∀ i, (t.get? i = some (FrameEvent.resetFences slot) ∨
        t.get? i = some (FrameEvent.queueSubmit slot)) →
    ∃ m, m < i ∧ t.get? m = some (FrameEvent.waitFences slot)

/-- Trace `t` waits on, resets, or submits with no fence other than slot
`slot`'s. -/
def onlySlot (t : List FrameEvent) (slot : Nat) : Prop :=
  ∀ j, (FrameEvent.waitFences j ∈ t ∨ FrameEvent.resetFences j ∈ t ∨
        FrameEvent.queueSubmit j ∈ t) → j = slot

/-- The observable destruction calls of the teardown sequencer. The event
vocabulary covers every object the specification's teardown order mentions,
so that orderings claimed by the specification are statable even when the
code never emits the corresponding event. Indexed events carry the loop
index of the destroyed object. -/
inductive TeardownEvent where
  | deviceWaitIdle
  | destroyFramebuffer (i : Nat)
  | freeCommandBuffers
  | destroyPipeline (i : Nat)
  | destroyPipelineLayout
  | destroyRenderPass
  | destroyImageView (i : Nat)
  | destroySwapchain
  | destroyVertexBuffer
  | freeVertexBufferMemory
  | destroyImageAvailableSemaphore (i : Nat)
  | destroyRenderFinishedSemaphore (i : Nat)
  | destroyFence (i : Nat)
  | destroyCommandPool
  | destroyDescriptorPool
  | destroyDescriptorSetLayout (i : Nat)
  | destroyUniformBuffer (i : Nat)
  | freeUniformBufferMemory (i : Nat)
  | destroyIndexBuffer
  | freeIndexBufferMemory
  | destroyTextureSampler (i : Nat)
  | destroyTextureImageView (i : Nat)
  | destroyTextureImage (i : Nat)
  | freeTextureImageMemory (i : Nat)
  | destroySurface
  | destroyDevice
  | destroyInstance
deriving DecidableEq, Repr

/-- `RenderSystem.cleanupSwapChain`: destroy each framebuffer, free the
command buffers back to the pool, destroy each pipeline, the pipeline layout,
the render pass, each image view, and finally the swapchain. `nFb`, `nPipe`
and `nView` are the lengths of the corresponding slices. -/
def cleanupSwapChainTrace (nFb nPipe nView : Nat) : List TeardownEvent :=
  (List.range nFb).map TeardownEvent.destroyFramebuffer ++
  [TeardownEvent.freeCommandBuffers] ++
  (List.range nPipe).map TeardownEvent.destroyPipeline ++
  [TeardownEvent.destroyPipelineLayout, TeardownEvent.destroyRenderPass] ++
  (List.range nView).map TeardownEvent.destroyImageView ++
  [TeardownEvent.destroySwapchain]

/-- The per-slot loop body of `RenderSystem.Cleanup`: destroy slot `i`'s
image-available semaphore, render-finished semaphore and in-flight fence. -/
def cleanupSlotTrace (i : Nat) : List TeardownEvent :=
  [TeardownEvent.destroyImageAvailableSemaphore i,
   TeardownEvent.destroyRenderFinishedSemaphore i,
   TeardownEvent.destroyFence i]

/-- `RenderSystem.Cleanup` (the revision with per-slot synchronization
objects): wait for the device to go idle, run the swapchain-scoped teardown,
destroy the vertex buffer and free its memory, destroy each slot's semaphores
and fence, destroy the command pool, then the surface, the device and the
instance. No descriptor pool, descriptor set layout, uniform buffer, index
buffer or texture object is destroyed by this function. -/
def cleanupTrace (nFb nPipe nView : Nat) : List TeardownEvent :=
  [TeardownEvent.deviceWaitIdle] ++
  cleanupSwapChainTrace nFb nPipe nView ++
  [TeardownEvent.destroyVertexBuffer, TeardownEvent.freeVertexBufferMemory] ++
  (List.range maxFramesInFlight).flatMap cleanupSlotTrace ++
  [TeardownEvent.destroyCommandPool, TeardownEvent.destroySurface,
   TeardownEvent.destroyDevice, TeardownEvent.destroyInstance]

/-- The five suitability checks as the specification words them (graphics
queue family, present-capable family, all required device extensions,
non-empty surface formats, non-empty present modes), for comparison with the
source-derived `deviceSuitable`. -/
def devicePasses (d : PhysicalDevice) : Prop :=
  (∃ q ∈ d.queueFamilies, q.graphics = true) ∧
  (∃ q ∈ d.queueFamilies, q.present = true) ∧
  (∀ e ∈ wantedExtensions, e ∈ d.extensions) ∧
  d.formats ≠ [] ∧ d.presentModes ≠ []

/-- Example suitable device (single graphics+present queue family), for
evaluating device selection on concrete input. -/
def deviceA : PhysicalDevice :=
  { queueFamilies := [{ graphics := true, present := true }]
    extensions := ["VK_KHR_swapchain"]
    capsOk := true
    formats := [{ format := 30, colorSpace := 0 }]
    presentModes := [2] }

/-- Example suitable device (graphics and present on distinct families), for
evaluating device selection on concrete input. -/
def deviceB : PhysicalDevice :=
  { queueFamilies := [{ graphics := true, present := false },
                      { graphics := false, present := true }]
    extensions := ["VK_EXT_other", "VK_KHR_swapchain"]
    capsOk := true
    formats := [{ format := 44, colorSpace := 0 }]
    presentModes := [2, 1] }

/-- Example capabilities with a definite current extent, for evaluating
`chooseSwapExtent` on concrete input. -/
def capsDefinite : SurfaceCapabilities :=
  { currentExtent := { width := 640, height := 480 }
    minImageExtent := { width := 2, height := 2 }
    maxImageExtent := { width := 10, height := 10 }
    minImageCount := 2, maxImageCount := 0 }

/-- Example capabilities with the `maxUint32` sentinel as current width, for
evaluating `chooseSwapExtent` on concrete input. -/
def capsSentinel : SurfaceCapabilities :=
  { currentExtent := { width := maxUint32, height := maxUint32 }
    minImageExtent := { width := 2, height := 2 }
    maxImageExtent := { width := 10, height := 10 }
    minImageCount := 2, maxImageCount := 0 }

/-! ## Theorems -/

/-- C10: `clamp(high, low, value)` gives the lower bound precedence over the
upper bound: it returns `low` whenever `value < low` or `low > high` (so when
`low > high` the result exceeds `high`), returns `high` when `value > high`
and `low ≤ high`, and returns `value` otherwise (that is, when
`low ≤ value ≤ high` with `low ≤ high`). -/
theorem clamp_low_precedence (high low value : Nat) :
    (value < low ∨ low > high → clamp high low value = low) ∧
    (low > high → clamp high low value > high) ∧
    (value > high → low ≤ high → clamp high low value = high) ∧
    (low ≤ value → value ≤ high → clamp high low value = value) := by
  simp only [clamp]
  refine ⟨?_, ?_, ?_, ?_⟩ <;> intros <;> split_ifs <;> omega

/-- Witness for `clamp_low_precedence` at concrete inputs. -/
theorem clamp_low_precedence_witness :
    clamp 3 5 4 = 5 ∧ clamp 10 2 11 = 10 ∧ clamp 10 2 7 = 7 :=
  ⟨(clamp_low_precedence 3 5 4).1 (Or.inr (by decide)),
   (clamp_low_precedence 10 2 11).2.2.1 (by decide) (by decide),
   (clamp_low_precedence 10 2 7).2.2.2 (by decide) (by decide)⟩

/-- C7, counterexample to the claim as stated: when no definite current extent
is reported and the surface reports `minImageExtent = (5,5)` above
`maxImageExtent = (3,3)`, the chosen width is 5, which does not lie in the
(empty) interval `[5, 3]`: the chosen extent exceeds `maxImageExtent`, so the
result does not lie within `[minImageExtent, maxImageExtent]` for arbitrary
reported bounds. -/
theorem chooseSwapExtent_out_of_bounds_cx :
    (chooseSwapExtent
      { currentExtent := { width := maxUint32, height := maxUint32 }
        minImageExtent := { width := 5, height := 5 }
        maxImageExtent := { width := 3, height := 3 }
        minImageCount := 2, maxImageCount := 0 } 4 4).width = 5 ∧
    ¬((chooseSwapExtent
      { currentExtent := { width := maxUint32, height := maxUint32 }
        minImageExtent := { width := 5, height := 5 }
        maxImageExtent := { width := 3, height := 3 }
        minImageCount := 2, maxImageCount := 0 } 4 4).width ≤ 3) := by
  constructor <;> decide

/-- C7 (amended): when the surface reports a definite current extent (width
differing from the `maxUint32` sentinel) it is used verbatim; otherwise,
provided `minImageExtent ≤ maxImageExtent` on each axis, the chosen extent
lies within `[minImageExtent, maxImageExtent]` inclusive, independently on
each axis, for any requested drawable width and height. -/
theorem chooseSwapExtent_spec (caps : SurfaceCapabilities) (canvasW canvasH : Nat)
    (hW : caps.minImageExtent.width ≤ caps.maxImageExtent.width)
    (hH : caps.minImageExtent.height ≤ caps.maxImageExtent.height) :
    (caps.currentExtent.width ≠ maxUint32 →
      chooseSwapExtent caps canvasW canvasH = caps.currentExtent) ∧
    (caps.currentExtent.width = maxUint32 →
      caps.minImageExtent.width ≤ (chooseSwapExtent caps canvasW canvasH).width ∧
      (chooseSwapExtent caps canvasW canvasH).width ≤ caps.maxImageExtent.width ∧
      caps.minImageExtent.height ≤ (chooseSwapExtent caps canvasW canvasH).height ∧
      (chooseSwapExtent caps canvasW canvasH).height ≤ caps.maxImageExtent.height) := by
  constructor
  · intro h
    simp [chooseSwapExtent, h]
  · intro h
    simp only [chooseSwapExtent, h, ne_eq, not_true_eq_false, if_false, clamp]
    refine ⟨?_, ?_, ?_, ?_⟩ <;> split_ifs <;> omega

/-- Witness for `chooseSwapExtent_spec` at concrete inputs: a definite current
extent is returned verbatim, and with bounds `[2, 10]` a request of 20 is
clamped into the interval. -/
theorem chooseSwapExtent_spec_witness :
    chooseSwapExtent capsDefinite 20 20 = { width := 640, height := 480 } ∧
    (2 ≤ (chooseSwapExtent capsSentinel 20 20).width ∧
     (chooseSwapExtent capsSentinel 20 20).width ≤ 10) :=
  ⟨(chooseSwapExtent_spec capsDefinite 20 20 (by decide) (by decide)).1 (by decide),
   ⟨((chooseSwapExtent_spec capsSentinel 20 20 (by decide) (by decide)).2 (by decide)).1,
    ((chooseSwapExtent_spec capsSentinel 20 20 (by decide) (by decide)).2 (by decide)).2.1⟩⟩

/-- C8: the requested swapchain image count is `min(minImageCount + 1,
maxImageCount)` when `maxImageCount > 0`, and `minImageCount + 1` when
`maxImageCount = 0` (unbounded). -/
theorem swapImageCount_spec (minImageCount maxImageCount : Nat) :
    (0 < maxImageCount →
      swapImageCount minImageCount maxImageCount = min (minImageCount + 1) maxImageCount) ∧
    (maxImageCount = 0 →
      swapImageCount minImageCount maxImageCount = minImageCount + 1) := by
  simp only [swapImageCount, Nat.min_def]
  constructor <;> intro h <;> split_ifs <;> omega

/-- Witness for `swapImageCount_spec`: `minImageCount = 2` with unbounded
`maxImageCount = 0` yields a requested count of 3, and `maxImageCount = 3`
caps `2 + 1` at 3. -/
theorem swapImageCount_spec_witness :
    swapImageCount 2 0 = 3 ∧ swapImageCount 2 3 = 3 :=
  ⟨(swapImageCount_spec 2 0).2 rfl,
   by have h := (swapImageCount_spec 2 3).1 (by decide); simpa using h⟩

/-- Behaviour of the present-mode scan for any accumulator value: mailbox wins
as soon as it occurs; otherwise immediate is remembered; otherwise the
accumulator is returned. -/
theorem chooseSwapPresentModeAux_spec (modes : List Nat) :
    ∀ b : Nat,
      (PresentModeMailbox ∈ modes →
        chooseSwapPresentModeAux modes b = PresentModeMailbox) ∧
      (PresentModeMailbox ∉ modes → PresentModeImmediate ∈ modes →
        chooseSwapPresentModeAux modes b = PresentModeImmediate) ∧
      (PresentModeMailbox ∉ modes → PresentModeImmediate ∉ modes →
        chooseSwapPresentModeAux modes b = b) := by
  induction modes with
  | nil => intro b; refine ⟨?_, ?_, ?_⟩ <;> simp [chooseSwapPresentModeAux]
  | cons p rest ih =>
    intro b
    by_cases hm : p = PresentModeMailbox
    · subst hm
      refine ⟨fun _ => by simp [chooseSwapPresentModeAux], ?_, ?_⟩ <;>
        exact fun h => absurd (List.mem_cons_self _ _) h
    · by_cases hi : p = PresentModeImmediate
      · subst hi
        have haux : chooseSwapPresentModeAux (PresentModeImmediate :: rest) b =
            chooseSwapPresentModeAux rest PresentModeImmediate := by
          simp [chooseSwapPresentModeAux, PresentModeImmediate, PresentModeMailbox]
        refine ⟨?_, ?_, ?_⟩
        · intro h
          rw [haux]
          have hr : PresentModeMailbox ∈ rest := by
            rcases List.mem_cons.mp h with h1 | h1
            · exact absurd h1 (by decide)
            · exact h1
          exact (ih PresentModeImmediate).1 hr
        · intro hnm _
          rw [haux]
          have hr : PresentModeMailbox ∉ rest :=
            fun hr => hnm (List.mem_cons_of_mem _ hr)
          by_cases h2 : PresentModeImmediate ∈ rest
          · exact (ih PresentModeImmediate).2.1 hr h2
          · exact (ih PresentModeImmediate).2.2 hr h2
        · intro _ hni
          exact absurd (List.mem_cons_self _ _) hni
      · have haux : chooseSwapPresentModeAux (p :: rest) b =
            chooseSwapPresentModeAux rest b := by
          simp [chooseSwapPresentModeAux, hm, hi]
        have hmem : ∀ q : Nat, q ∈ p :: rest → q ≠ p → q ∈ rest := by
          intro q hq hne
          rcases List.mem_cons.mp hq with h1 | h1
          · exact absurd h1 hne
          · exact h1
        refine ⟨?_, ?_, ?_⟩
        · intro h
          rw [haux]
          exact (ih b).1 (hmem _ h (fun he => hm he.symm))
        · intro hnm him
          rw [haux]
          exact (ih b).2.1 (fun hr => hnm (List.mem_cons_of_mem _ hr))
            (hmem _ him (fun he => hi he.symm))
        · intro hnm hni
          rw [haux]
          exact (ih b).2.2 (fun hr => hnm (List.mem_cons_of_mem _ hr))
            (fun hr => hni (List.mem_cons_of_mem _ hr))

/-- C6: for every list of supported present modes, `chooseSwapPresentMode`
returns mailbox if mailbox is in the list (even when immediate is also
present); otherwise immediate if immediate is in the list; otherwise FIFO. -/
theorem chooseSwapPresentMode_spec (modes : List Nat) :
    (PresentModeMailbox ∈ modes →
      chooseSwapPresentMode modes = PresentModeMailbox) ∧
    (PresentModeMailbox ∉ modes → PresentModeImmediate ∈ modes →
      chooseSwapPresentMode modes = PresentModeImmediate) ∧
    (PresentModeMailbox ∉ modes → PresentModeImmediate ∉ modes →
      chooseSwapPresentMode modes = PresentModeFifo) :=
  chooseSwapPresentModeAux_spec modes PresentModeFifo

/-- Witness for `chooseSwapPresentMode_spec`: mailbox wins over immediate when
both are present; immediate wins when mailbox is absent; FIFO otherwise. -/
theorem chooseSwapPresentMode_spec_witness :
    chooseSwapPresentMode [PresentModeImmediate, PresentModeMailbox] = PresentModeMailbox ∧
    chooseSwapPresentMode [PresentModeFifo, PresentModeImmediate] = PresentModeImmediate ∧
    chooseSwapPresentMode [PresentModeFifo] = PresentModeFifo :=
  ⟨(chooseSwapPresentMode_spec _).1 (by decide),
   (chooseSwapPresentMode_spec _).2.1 (by decide) (by decide),
   (chooseSwapPresentMode_spec _).2.2 (by decide) (by decide)⟩

/-- The scan predicate of `chooseSwapSurfaceFormat` holds exactly for the
preferred (BGR8, sRGB non-linear) pair. -/
theorem preferred_pred_iff (f : SurfaceFormat) :
    (f.format == FormatB8g8r8Unorm && f.colorSpace == ColorSpaceSrgbNonlinear) = true ↔
      f = preferredSurfaceFormat := by
  cases f
  simp [preferredSurfaceFormat, Bool.and_eq_true, beq_iff_eq, SurfaceFormat.mk.injEq]

/-- C5, counterexample to the claim as stated: on the two-element list both of
whose entries have format `undefined`, the preferred pair is absent, so the
fallback returns the first element, whose format is `undefined` — refuting
"the result is never 'undefined'" over arbitrary non-empty lists. -/
theorem chooseSwapSurfaceFormat_undefined_cx :
    (chooseSwapSurfaceFormat
      [{ format := FormatUndefined, colorSpace := ColorSpaceSrgbNonlinear },
       { format := FormatUndefined, colorSpace := ColorSpaceSrgbNonlinear }]).map
      SurfaceFormat.format = some FormatUndefined := by decide

/-- C5 (amended): for every non-empty list `f0 :: rest` of supported surface
formats: if the list has length 1 and its sole entry has format `undefined`,
the fixed preferred (BGR8, sRGB non-linear) pair is returned; whenever the
preferred pair occurs anywhere in the list it is returned, regardless of list
order; otherwise the first element is returned; and the result has format
`undefined` only when the list has length at least 2, lacks the preferred
pair, and starts with an `undefined`-format entry. -/
theorem chooseSwapSurfaceFormat_spec (f0 : SurfaceFormat) (rest : List SurfaceFormat) :
    (rest = [] → f0.format = FormatUndefined →
      chooseSwapSurfaceFormat (f0 :: rest) = some preferredSurfaceFormat) ∧
    (preferredSurfaceFormat ∈ f0 :: rest →
      chooseSwapSurfaceFormat (f0 :: rest) = some preferredSurfaceFormat) ∧
    (¬(rest = [] ∧ f0.format = FormatUndefined) →
      preferredSurfaceFormat ∉ f0 :: rest →
      chooseSwapSurfaceFormat (f0 :: rest) = some f0) ∧
    (∀ g, chooseSwapSurfaceFormat (f0 :: rest) = some g → g.format = FormatUndefined →
      rest ≠ [] ∧ preferredSurfaceFormat ∉ f0 :: rest ∧ f0.format = FormatUndefined) := by
  have hlen : (f0 :: rest).length = 1 ↔ rest = [] := by
    simp [List.length_eq_zero]
  refine ⟨?_, ?_, ?_, ?_⟩
  · intro h1 h2
    subst h1
    simp [chooseSwapSurfaceFormat, h2]
  · intro hmem
    by_cases hc : (f0 :: rest).length = 1 ∧ f0.format = FormatUndefined
    · simp [chooseSwapSurfaceFormat, hc]
    · have hsome : ∃ x, x ∈ f0 :: rest ∧
          (x.format == FormatB8g8r8Unorm && x.colorSpace == ColorSpaceSrgbNonlinear) = true :=
        ⟨preferredSurfaceFormat, hmem, by decide⟩
      obtain ⟨f, hf⟩ := Option.isSome_iff_exists.mp (List.find?_isSome.mpr hsome)
      have hpf := List.find?_some hf
      have hfp := (preferred_pred_iff f).mp hpf
      subst hfp
      simp only [chooseSwapSurfaceFormat, if_neg hc]
      rw [hf]
  · intro hc hmem
    have hc' : ¬((f0 :: rest).length = 1 ∧ f0.format = FormatUndefined) := by
      rw [hlen]; exact hc
    have hnone : (f0 :: rest).find? (fun f =>
        f.format == FormatB8g8r8Unorm && f.colorSpace == ColorSpaceSrgbNonlinear) = none := by
      rw [List.find?_eq_none]
      intro x hx hpx
      exact hmem ((preferred_pred_iff x).mp hpx ▸ hx)
    simp only [chooseSwapSurfaceFormat, if_neg hc']
    rw [hnone]
  · intro g hg hund
    by_cases hc : (f0 :: rest).length = 1 ∧ f0.format = FormatUndefined
    · simp only [chooseSwapSurfaceFormat, if_pos hc, Option.some.injEq] at hg
      rw [← hg] at hund
      exact absurd hund (by decide)
    · cases hfind : (f0 :: rest).find? (fun f =>
          f.format == FormatB8g8r8Unorm && f.colorSpace == ColorSpaceSrgbNonlinear) with
      | some f =>
        have hpf := List.find?_some hfind
        have hfp := (preferred_pred_iff f).mp hpf
        simp only [chooseSwapSurfaceFormat, if_neg hc] at hg
        rw [hfind] at hg
        simp only [Option.some.injEq] at hg
        rw [← hg, hfp] at hund
        exact absurd hund (by decide)
      | none =>
        simp only [chooseSwapSurfaceFormat, if_neg hc] at hg
        rw [hfind] at hg
        simp only [Option.some.injEq] at hg
        subst hg
        have hf0 : f0.format = FormatUndefined := hund
        refine ⟨?_, ?_, hf0⟩
        · intro hrest
          exact hc (by rw [hlen]; exact ⟨hrest, hf0⟩)
        · intro hmem
          have := List.find?_eq_none.mp hfind _ hmem
          exact this (by decide)

/-- Witness for `chooseSwapSurfaceFormat_spec`: a singleton undefined list
yields the preferred pair, and a list containing the preferred pair after
another entry yields the preferred pair. -/
theorem chooseSwapSurfaceFormat_spec_witness :
    chooseSwapSurfaceFormat
      [{ format := FormatUndefined, colorSpace := ColorSpaceSrgbNonlinear }] =
      some preferredSurfaceFormat ∧
    chooseSwapSurfaceFormat
      [{ format := 44, colorSpace := 0 },
       { format := FormatB8g8r8Unorm, colorSpace := ColorSpaceSrgbNonlinear }] =
      some preferredSurfaceFormat :=
  ⟨(chooseSwapSurfaceFormat_spec
      { format := FormatUndefined, colorSpace := ColorSpaceSrgbNonlinear } []).1 rfl rfl,
   (chooseSwapSurfaceFormat_spec { format := 44, colorSpace := 0 }
      [{ format := FormatB8g8r8Unorm, colorSpace := ColorSpaceSrgbNonlinear }]).2.1
      (by decide)⟩

/-- A successful `findMemoryTypeAux` scan starting at index `start` finds the
first matching entry: the returned index is `start + k` for the least `k`
whose entry matches. -/
theorem findMemoryTypeAux_some (tf p : Nat) :
    ∀ (mt : List Nat) (start i : Nat),
      findMemoryTypeAux mt tf p start = some i →
      ∃ k flags, mt.get? k = some flags ∧ i = start + k ∧
        (tf &&& ((1 <<< (start + k)) % 4294967296) ≠ 0 ∧ flags &&& p = p) ∧
        ∀ j flagsJ, j < k → mt.get? j = some flagsJ →
          ¬(tf &&& ((1 <<< (start + j)) % 4294967296) ≠ 0 ∧ flagsJ &&& p = p) := by
  intro mt
  induction mt with
  | nil => intro start i h; simp [findMemoryTypeAux] at h
  | cons flags rest ih =>
    intro start i h
    by_cases hc : tf &&& ((1 <<< start) % 4294967296) ≠ 0 ∧ flags &&& p = p
    · have hi : i = start := by
        simp only [findMemoryTypeAux, if_pos hc, Option.some.injEq] at h
        omega
      subst hi
      exact ⟨0, flags, rfl, by omega, by simpa using hc, by intro j fJ hj; omega⟩
    · have h' : findMemoryTypeAux rest tf p (start + 1) = some i := by
        simpa only [findMemoryTypeAux, if_neg hc] using h
      obtain ⟨k, fl, hget, hik, hm, hmin⟩ := ih (start + 1) i h'
      have hidx : start + 1 + k = start + (k + 1) := by omega
      refine ⟨k + 1, fl, by simpa using hget, by omega, by rwa [hidx] at hm, ?_⟩
      intro j fJ hj hgetJ
      match j with
      | 0 =>
        have hfl : fJ = flags := by simpa using hgetJ.symm
        subst hfl
        simpa using hc
      | Nat.succ n =>
        have hn := hmin n fJ (by omega) (by simpa using hgetJ)
        have e : start + 1 + n = start + (n + 1) := by omega
        rwa [e] at hn

/-- `findMemoryTypeAux` returns `none` exactly when no entry at or after the
start index matches. -/
theorem findMemoryTypeAux_none (tf p : Nat) :
    ∀ (mt : List Nat) (start : Nat),
      findMemoryTypeAux mt tf p start = none ↔
        ∀ k flags, mt.get? k = some flags →
          ¬(tf &&& ((1 <<< (start + k)) % 4294967296) ≠ 0 ∧ flags &&& p = p) := by
  intro mt
  induction mt with
  | nil => intro start; simp [findMemoryTypeAux]
  | cons flags rest ih =>
    intro start
    by_cases hc : tf &&& ((1 <<< start) % 4294967296) ≠ 0 ∧ flags &&& p = p
    · simp only [findMemoryTypeAux, if_pos hc]
      constructor
      · intro h; cases h
      · intro h
        exact absurd (by simpa using hc) (h 0 flags rfl)
    · simp only [findMemoryTypeAux, if_neg hc]
      rw [ih (start + 1)]
      constructor
      · intro h k fl hget
        match k with
        | 0 =>
          have : fl = flags := by simpa using hget.symm
          subst this
          simpa using hc
        | Nat.succ n =>
          have hn := h n fl (by simpa using hget)
          have e : start + 1 + n = start + (n + 1) := by omega
          rwa [e] at hn
      · intro h k fl hget
        have hn := h (k + 1) fl (by simpa using hget)
        have e : start + 1 + k = start + (k + 1) := by omega
        rwa [e]

/-- For indices below 32, the Go test `typeFilter & (1 << i) != 0` (a `uint32`
shift) is exactly "bit `i` of `typeFilter` is set". -/
theorem filter_bit_iff (tf i : Nat) (h : i < 32) :
    (tf &&& ((1 <<< i) % 4294967296) ≠ 0) ↔ tf.testBit i = true := by
  have hlt : (1 <<< i) < 4294967296 := by
    rw [Nat.shiftLeft_eq, one_mul]
    calc 2 ^ i < 2 ^ 32 := Nat.pow_lt_pow_right (by decide) h
    _ = 4294967296 := by norm_num
  rw [Nat.mod_eq_of_lt hlt, Nat.shiftLeft_eq, one_mul, Nat.and_two_pow]
  cases htb : tf.testBit i <;> simp [htb]

/-- `flags &&& p = p` says exactly that the flag word `flags` is a superset of
the requested property bits `p`. -/
theorem land_superset_iff (flags p : Nat) :
    flags &&& p = p ↔ ∀ b, p.testBit b = true → flags.testBit b = true := by
  constructor
  · intro h b hb
    have := congrArg (fun n => n.testBit b) h
    simp only [Nat.testBit_and, hb, Bool.and_true] at this
    exact this
  · intro h
    apply Nat.eq_of_testBit_eq
    intro b
    rw [Nat.testBit_and]
    cases hb : p.testBit b
    · simp
    · simp [h b hb]

/-- C9: for every memory-type table (the property-flag words of the device's
`MemoryTypes`, which has at most 32 entries), type-filter bitmask and
requested property flags, `findMemoryType` returns the smallest index `i`
such that bit `i` of the filter is set and memory type `i`'s property flags
are a superset of the requested flags, and returns the error (`none`) if and
only if no index of the table satisfies both conditions. -/
theorem findMemoryType_first_match (memoryTypes : List Nat) (typeFilter properties : Nat)
    (hlen : memoryTypes.length ≤ 32) :
    (∀ i, findMemoryType memoryTypes typeFilter properties = some i →
      ∃ flags, memoryTypes.get? i = some flags ∧
        typeFilter.testBit i = true ∧
        (∀ b, properties.testBit b = true → flags.testBit b = true) ∧
        (∀ j flagsJ, j < i → memoryTypes.get? j = some flagsJ →
          ¬(typeFilter.testBit j = true ∧
            ∀ b, properties.testBit b = true → flagsJ.testBit b = true))) ∧
    (findMemoryType memoryTypes typeFilter properties = none ↔
      ∀ j flagsJ, memoryTypes.get? j = some flagsJ →
        ¬(typeFilter.testBit j = true ∧
          ∀ b, properties.testBit b = true → flagsJ.testBit b = true)) := by
  have hidx : ∀ j (flags : Nat), memoryTypes.get? j = some flags → j < 32 := by
    intro j flags hget
    obtain ⟨hj, -⟩ := List.get?_eq_some.mp hget
    omega
  constructor
  · intro i hi
    obtain ⟨k, flags, hget, hik, hm, hmin⟩ :=
      findMemoryTypeAux_some typeFilter properties memoryTypes 0 i hi
    have hk0 : i = k := by omega
    subst hk0
    have hi32 : i < 32 := hidx i flags hget
    refine ⟨flags, hget, ?_, ?_, ?_⟩
    · exact (filter_bit_iff typeFilter i hi32).mp (by have := hm.1; simpa using this)
    · exact (land_superset_iff flags properties).mp hm.2
    · intro j flagsJ hj hgetJ hcontra
      have hj32 : j < 32 := hidx j flagsJ hgetJ
      exact hmin j flagsJ hj hgetJ
        ⟨by simpa using (filter_bit_iff typeFilter j hj32).mpr hcontra.1,
         (land_superset_iff flagsJ properties).mpr hcontra.2⟩
  · rw [show findMemoryType memoryTypes typeFilter properties =
        findMemoryTypeAux memoryTypes typeFilter properties 0 from rfl,
      findMemoryTypeAux_none]
    constructor
    · intro h j flagsJ hget hcontra
      have hj32 : j < 32 := hidx j flagsJ hget
      exact h j flagsJ hget
        ⟨by simpa using (filter_bit_iff typeFilter j hj32).mpr hcontra.1,
         (land_superset_iff flagsJ properties).mpr hcontra.2⟩
    · intro h j flagsJ hget hcontra
      have hj32 : j < 32 := hidx j flagsJ hget
      exact h j flagsJ hget
        ⟨(filter_bit_iff typeFilter j hj32).mp (by simpa using hcontra.1),
         (land_superset_iff flagsJ properties).mp hcontra.2⟩

/-- Witness for `findMemoryType_first_match`: on the table `[1, 3, 3]` with
filter `0b110` and requested properties `3`, index 0 is filtered out, index 1
matches first; the characterization confirms index 1 and its properties. -/
theorem findMemoryType_first_match_witness :
    findMemoryType [1, 3, 3] 6 3 = some 1 ∧
    ∃ flags, ([1, 3, 3] : List Nat).get? 1 = some flags ∧
      (6 : Nat).testBit 1 = true ∧
      (∀ b, (3 : Nat).testBit b = true → flags.testBit b = true) ∧
      (∀ j flagsJ, j < 1 → ([1, 3, 3] : List Nat).get? j = some flagsJ →
        ¬((6 : Nat).testBit j = true ∧
          ∀ b, (3 : Nat).testBit b = true → flagsJ.testBit b = true)) :=
  ⟨by decide,
   (findMemoryType_first_match [1, 3, 3] 6 3 (by decide)).1 1 (by decide)⟩

/-- An if-chain step of `deviceSuitable` is true exactly when its rejection
condition fails and the rest of the chain is true. -/
theorem if_false_chain (c : Prop) [Decidable c] (r : Bool) :
    ((if c then false else r) = true) ↔ (¬c ∧ r = true) := by
  split_ifs with h <;> simp [h]

/-- The selection fold of `initVulkan` computes the last suitable device of
the enumeration (the first suitable one of the reversed list), falling back
to the initial accumulator. -/
theorem selectDevice_foldl (wanted : List String) (devices : List PhysicalDevice) :
    ∀ init : Option PhysicalDevice,
      devices.foldl (fun acc d => if deviceSuitable wanted d then some d else acc) init =
        (devices.reverse.find? (deviceSuitable wanted)).or init := by
  induction devices with
  | nil => intro init; simp
  | cons d rest ih =>
    intro init
    simp only [List.foldl_cons, List.reverse_cons]
    rw [ih, List.find?_append]
    cases hf : rest.reverse.find? (deviceSuitable wanted) with
    | some x => simp
    | none =>
      by_cases hd : deviceSuitable wanted d = true
      · simp [hd]
      · simp [hd]

/-- With the surface-capability query succeeding, the source's suitability
check agrees with the specification's five checks. -/
theorem deviceSuitable_iff_passes (d : PhysicalDevice) (hcaps : d.capsOk = true) :
    deviceSuitable wantedExtensions d = true ↔ devicePasses d := by
  constructor
  · intro h
    unfold deviceSuitable at h
    split_ifs at h with h1 h2 h3 h4 h5 h6 h7
    have hany : (d.queueFamilies.any (·.graphics) && d.queueFamilies.any (·.present)) = true := by
      revert h2
      cases d.queueFamilies.any (·.graphics) && d.queueFamilies.any (·.present) <;> simp
    rw [Bool.and_eq_true, List.any_eq_true, List.any_eq_true] at hany
    have hall : (wantedExtensions.all fun req => d.extensions.any (· == req)) = true := by
      revert h4
      cases wantedExtensions.all fun req => d.extensions.any (· == req) <;> simp
    rw [List.all_eq_true] at hall
    refine ⟨hany.1, hany.2, ?_, ?_, ?_⟩
    · intro e he
      have := hall e he
      rw [List.any_eq_true] at this
      obtain ⟨x, hx, hxe⟩ := this
      rw [beq_iff_eq] at hxe
      exact hxe ▸ hx
    · intro h0
      exact h6 (by rw [h0]; rfl)
    · intro h0
      exact h7 (by rw [h0]; rfl)
  · rintro ⟨⟨qg, hqg, hg⟩, ⟨qp, hqp, hp⟩, hext, hf, hm⟩
    have h1 : ¬(d.queueFamilies.length = 0) := by
      intro h0
      rw [List.length_eq_zero] at h0
      rw [h0] at hqg
      exact absurd hqg (List.not_mem_nil _)
    have hany : (d.queueFamilies.any (·.graphics) && d.queueFamilies.any (·.present)) = true := by
      rw [Bool.and_eq_true, List.any_eq_true, List.any_eq_true]
      exact ⟨⟨qg, hqg, hg⟩, ⟨qp, hqp, hp⟩⟩
    have h2 : ¬((!(d.queueFamilies.any (·.graphics) && d.queueFamilies.any (·.present))) = true) := by
      rw [hany]
      simp
    have hswap : "VK_KHR_swapchain" ∈ d.extensions :=
      hext _ (by simp [wantedExtensions])
    have h3 : ¬(d.extensions.length = 0) := by
      intro h0
      rw [List.length_eq_zero] at h0
      rw [h0] at hswap
      exact absurd hswap (List.not_mem_nil _)
    have hall : (wantedExtensions.all fun req => d.extensions.any (· == req)) = true := by
      rw [List.all_eq_true]
      intro req hreq
      rw [List.any_eq_true]
      exact ⟨req, hext _ hreq, by simp⟩
    have h4 : ¬((!(wantedExtensions.all fun req => d.extensions.any (· == req))) = true) := by
      rw [hall]
      simp
    have h5 : ¬((!d.capsOk) = true) := by
      rw [hcaps]
      simp
    have h6 : ¬(d.formats.length = 0) := by
      intro h0
      exact hf (List.length_eq_zero.mp h0)
    have h7 : ¬(d.presentModes.length = 0) := by
      intro h0
      exact hm (List.length_eq_zero.mp h0)
    unfold deviceSuitable
    rw [if_neg h1, if_neg h2, if_neg h3, if_neg h4, if_neg h5, if_neg h6, if_neg h7]

/-- C4: for every enumeration order of physical devices (whose surface
queries succeed), device negotiation selects the last device in enumeration
order that passes all checks — formally, the first element of the reversed
enumeration satisfying the source's suitability test, which coincides with
the specification's five checks — and reports the no-suitable-device error
(`none`) if and only if no device passes all checks. -/
theorem selectDevice_last_suitable (devices : List PhysicalDevice)
    (hcaps : ∀ d ∈ devices, d.capsOk = true) :
    selectDevice wantedExtensions devices =
      devices.reverse.find? (deviceSuitable wantedExtensions) ∧
    (∀ d ∈ devices, deviceSuitable wantedExtensions d = true ↔ devicePasses d) ∧
    (selectDevice wantedExtensions devices = none ↔ ∀ d ∈ devices, ¬devicePasses d) := by
  have hsel : selectDevice wantedExtensions devices =
      devices.reverse.find? (deviceSuitable wantedExtensions) := by
    rw [selectDevice, selectDevice_foldl]
    cases devices.reverse.find? (deviceSuitable wantedExtensions) <;> simp
  refine ⟨hsel, fun d hd => deviceSuitable_iff_passes d (hcaps d hd), ?_⟩
  rw [hsel, List.find?_eq_none]
  constructor
  · intro h d hd hpass
    have hmem : d ∈ devices.reverse := List.mem_reverse.mpr hd
    exact absurd ((deviceSuitable_iff_passes d (hcaps d hd)).mpr hpass) (by simpa using h d hmem)
  · intro h d hd
    have hd' : d ∈ devices := List.mem_reverse.mp hd
    rw [Bool.not_eq_true]
    rw [← Bool.not_eq_true]
    intro hsuit
    exact h d hd' ((deviceSuitable_iff_passes d (hcaps d hd')).mp hsuit)

/-- Witness for `selectDevice_last_suitable`: with two suitable devices
enumerated as `[deviceA, deviceB]`, selection returns the last one,
`deviceB`, matching the characterization. -/
theorem selectDevice_last_suitable_witness :
    selectDevice wantedExtensions [deviceA, deviceB] = some deviceB ∧
    (selectDevice wantedExtensions [deviceA, deviceB] =
      [deviceA, deviceB].reverse.find? (deviceSuitable wantedExtensions) ∧
     (∀ d ∈ [deviceA, deviceB], deviceSuitable wantedExtensions d = true ↔ devicePasses d) ∧
     (selectDevice wantedExtensions [deviceA, deviceB] = none ↔
       ∀ d ∈ [deviceA, deviceB], ¬devicePasses d)) :=
  ⟨by decide,
   selectDevice_last_suitable [deviceA, deviceB] (by decide)⟩

/-- Iterating the resize listener never touches the frame counter or the
start-time marker. -/
theorem notifyResize_iterate_fields (s : SchedulerState) (k : Nat) :
    (notifyResize^[k] s).currentFrame = s.currentFrame ∧
    (notifyResize^[k] s).startTimeSet = s.startTimeSet := by
  induction k with
  | zero => simp
  | succ n ih =>
    rw [Function.iterate_succ_apply']
    exact ⟨by simp [notifyResize, ih.1], by simp [notifyResize, ih.2]⟩

/-- At least one resize notification leaves the flag raised. -/
theorem notifyResize_iterate_flag (s : SchedulerState) (k : Nat) (hk : 1 ≤ k) :
    (notifyResize^[k] s).framebufferResized = true := by
  cases k with
  | zero => omega
  | succ n => rw [Function.iterate_succ_apply']; rfl

/-- C3: after any number `k ≥ 1` of resize notifications, the next `Update`
performs exactly one swapchain rebuild and nothing else (its whole trace is
the single rebuild event — no acquire, no uniform update, no submit, no
present), clears the flag, and leaves the frame counter unchanged; and the
subsequent `Update`, with the flag clear, performs no rebuild. -/
theorem resize_single_rebuild (s : SchedulerState) (k imageIndex nextIndex : Nat)
    (hk : 1 ≤ k) :
    (update (notifyResize^[k] s) imageIndex).1 = [FrameEvent.recreateSwapChain] ∧
    (update (notifyResize^[k] s) imageIndex).2.framebufferResized = false ∧
    (update (notifyResize^[k] s) imageIndex).2.currentFrame = s.currentFrame ∧
    FrameEvent.recreateSwapChain ∉
      (update ((update (notifyResize^[k] s) imageIndex).2) nextIndex).1 := by
  have hflag := notifyResize_iterate_flag s k hk
  have hcf := (notifyResize_iterate_fields s k).1
  have h1 : update (notifyResize^[k] s) imageIndex =
      ([FrameEvent.recreateSwapChain],
       { framebufferResized := false,
         currentFrame := (notifyResize^[k] s).currentFrame,
         startTimeSet := true }) := by
    simp [update, hflag]
  refine ⟨by rw [h1], by rw [h1], by rw [h1]; exact hcf, ?_⟩
  rw [h1]
  simp [update, frameTrace]

/-- Witness for `resize_single_rebuild`: two notifications before an `Update`
yield the single-rebuild trace, and the following `Update` does not rebuild. -/
theorem resize_single_rebuild_witness :
    (1 : Nat) ≤ 2 ∧
    ((update (notifyResize^[2] ⟨false, 0, false⟩) 0).1 = [FrameEvent.recreateSwapChain] ∧
     (update (notifyResize^[2] ⟨false, 0, false⟩) 0).2.framebufferResized = false ∧
     (update (notifyResize^[2] ⟨false, 0, false⟩) 0).2.currentFrame = 0 ∧
     FrameEvent.recreateSwapChain ∉
       (update ((update (notifyResize^[2] ⟨false, 0, false⟩) 0).2) 1).1) :=
  ⟨by decide, resize_single_rebuild ⟨false, 0, false⟩ 2 0 1 (by decide)⟩

/-- Within one steady-state frame trace, the wait on the slot's fence comes
before any reset of it or submission with it. -/
theorem frameTrace_waits (c img : Nat) : waitsBeforeReuse (frameTrace c img) c := by
  intro i h
  match i with
  | 0 => simp [frameTrace] at h
  | 1 => simp [frameTrace] at h
  | 2 => simp [frameTrace] at h
  | 3 => exact ⟨0, by omega, rfl⟩
  | 4 => exact ⟨0, by omega, rfl⟩
  | 5 => simp [frameTrace] at h
  | (n + 6) => simp [frameTrace] at h

/-- A steady-state frame trace touches only its own slot's fence. -/
theorem frameTrace_onlySlot (c img : Nat) : onlySlot (frameTrace c img) c := by
  intro j h
  rcases h with h | h | h <;> simp [frameTrace] at h <;> omega

/-- Every cycle of a no-resize run is the steady-state trace of the
round-robin slot `(currentFrame + cycle number) mod N`. -/
theorem updateRun_noResize_traces (imageIndices : List Nat) :
    ∀ s : SchedulerState, s.framebufferResized = false →
      s.currentFrame < maxFramesInFlight →
      ∀ k t, ((updateRun s imageIndices).1).get? k = some t →
        ∃ img, imageIndices.get? k = some img ∧
          t = frameTrace ((s.currentFrame + k) % maxFramesInFlight) img := by
  induction imageIndices with
  | nil => intro s _ _ k t h; simp [updateRun] at h
  | cons i rest ih =>
    intro s hflag hframe k t h
    have hupd : update s i =
        (frameTrace s.currentFrame i,
         { framebufferResized := false,
           currentFrame := (s.currentFrame + 1) % maxFramesInFlight,
           startTimeSet := true }) := by
      simp [update, hflag]
    match k with
    | 0 =>
      have ht : t = frameTrace s.currentFrame i := by
        rw [show updateRun s (i :: rest) =
            ((update s i).1 :: (updateRun (update s i).2 rest).1,
             (updateRun (update s i).2 rest).2) from rfl, hupd] at h
        simpa using h.symm
      refine ⟨i, rfl, ?_⟩
      rw [ht]
      have : (s.currentFrame + 0) % maxFramesInFlight = s.currentFrame := by
        simp only [maxFramesInFlight] at hframe ⊢
        omega
      rw [this]
    | Nat.succ n =>
      have h' : ((updateRun (update s i).2 rest).1).get? n = some t := by
        rw [show updateRun s (i :: rest) =
            ((update s i).1 :: (updateRun (update s i).2 rest).1,
             (updateRun (update s i).2 rest).2) from rfl] at h
        simpa using h
      obtain ⟨img, hg, ht⟩ := ih (update s i).2 (by rw [hupd])
        (by rw [hupd]; exact Nat.mod_lt _ (by decide)) n t h'
      refine ⟨img, by simpa using hg, ?_⟩
      rw [ht, hupd]
      have : ((s.currentFrame + 1) % maxFramesInFlight + n) % maxFramesInFlight =
          (s.currentFrame + (n + 1)) % maxFramesInFlight := by
        simp only [maxFramesInFlight]
        omega
      rw [this]

/-- C1: over a sequence of `maxFramesInFlight + 1 = 3` consecutive `Update`
cycles with no resize flagged, each cycle's trace begins with the wait on the
round-robin slot's fence, every reset of and submission with that fence comes
after that wait, and no other slot's fence is waited on, reset, or submitted
with in that cycle — so no slot's fence is reset or reused for a submission
before the wait on it has observed the previous submission complete. -/
theorem update_fence_protocol (s : SchedulerState) (imageIndices : List Nat)
    (hflag : s.framebufferResized = false)
    (hframe : s.currentFrame < maxFramesInFlight)
    (_hlen : imageIndices.length = maxFramesInFlight + 1) :
    ∀ k t, ((updateRun s imageIndices).1).get? k = some t →
      t.head? = some (FrameEvent.waitFences ((s.currentFrame + k) % maxFramesInFlight)) ∧
      waitsBeforeReuse t ((s.currentFrame + k) % maxFramesInFlight) ∧
      onlySlot t ((s.currentFrame + k) % maxFramesInFlight) := by
  intro k t h
  obtain ⟨img, -, ht⟩ := updateRun_noResize_traces imageIndices s hflag hframe k t h
  subst ht
  exact ⟨rfl, frameTrace_waits _ _, frameTrace_onlySlot _ _⟩

/-- Witness for `update_fence_protocol`: a 3-cycle run from slot 0 with image
indices `[0, 1, 0]`. -/
theorem update_fence_protocol_witness :
    SchedulerState.framebufferResized ⟨false, 0, false⟩ = false ∧
    ([0, 1, 0] : List Nat).length = maxFramesInFlight + 1 ∧
    (∀ k t, ((updateRun ⟨false, 0, false⟩ [0, 1, 0]).1).get? k = some t →
      t.head? = some (FrameEvent.waitFences ((0 + k) % maxFramesInFlight)) ∧
      waitsBeforeReuse t ((0 + k) % maxFramesInFlight) ∧
      onlySlot t ((0 + k) % maxFramesInFlight)) :=
  ⟨rfl, by decide,
   update_fence_protocol ⟨false, 0, false⟩ [0, 1, 0] rfl (by decide) (by decide)⟩

/-- C2, counterexample to the claim as stated: with one framebuffer, one
pipeline and one image view, `Cleanup` destroys the swapchain at position 7
of its trace and slot 0's image-available semaphore only at position 10, and
it emits no descriptor-pool destruction at all — contradicting the claimed
order, which requires the per-frame semaphores and fences and then the
descriptor pool to be destroyed before the swapchain-scoped teardown. -/
theorem cleanup_order_cx :
    (cleanupTrace 1 1 1).get? 7 = some TeardownEvent.destroySwapchain ∧
    (cleanupTrace 1 1 1).get? 10 = some (TeardownEvent.destroyImageAvailableSemaphore 0) ∧
    (cleanupTrace 1 1 1).get? 16 = some TeardownEvent.destroyCommandPool ∧
    TeardownEvent.destroyDescriptorPool ∉ cleanupTrace 1 1 1 := by decide

/-- C2 (amended): for any object counts, `Cleanup` performs, in this order:
wait device idle; the swapchain-scoped teardown (framebuffers, free command
buffers, pipelines, pipeline layout, render pass, image views, swapchain);
destroy the vertex buffer and free its memory; destroy each frame slot's
semaphores and fence; destroy the command pool; destroy the surface, the
device, and the instance. It destroys no descriptor pool, no descriptor set
layouts, no uniform buffers, no index buffer, and no texture objects. -/
theorem cleanup_actual_order (nFb nPipe nView : Nat) :
    cleanupTrace nFb nPipe nView =
      TeardownEvent.deviceWaitIdle ::
        ((List.range nFb).map TeardownEvent.destroyFramebuffer ++
          TeardownEvent.freeCommandBuffers ::
            ((List.range nPipe).map TeardownEvent.destroyPipeline ++
              TeardownEvent.destroyPipelineLayout ::
              TeardownEvent.destroyRenderPass ::
                ((List.range nView).map TeardownEvent.destroyImageView ++
                  [TeardownEvent.destroySwapchain,
                   TeardownEvent.destroyVertexBuffer,
                   TeardownEvent.freeVertexBufferMemory,
                   TeardownEvent.destroyImageAvailableSemaphore 0,
                   TeardownEvent.destroyRenderFinishedSemaphore 0,
                   TeardownEvent.destroyFence 0,
                   TeardownEvent.destroyImageAvailableSemaphore 1,
                   TeardownEvent.destroyRenderFinishedSemaphore 1,
                   TeardownEvent.destroyFence 1,
                   TeardownEvent.destroyCommandPool,
                   TeardownEvent.destroySurface,
                   TeardownEvent.destroyDevice,
                   TeardownEvent.destroyInstance]))) ∧
    TeardownEvent.destroyDescriptorPool ∉ cleanupTrace nFb nPipe nView ∧
    (∀ i, TeardownEvent.destroyDescriptorSetLayout i ∉ cleanupTrace nFb nPipe nView) ∧
    (∀ i, TeardownEvent.destroyUniformBuffer i ∉ cleanupTrace nFb nPipe nView) ∧
    TeardownEvent.destroyIndexBuffer ∉ cleanupTrace nFb nPipe nView ∧
    (∀ i, TeardownEvent.destroyTextureSampler i ∉ cleanupTrace nFb nPipe nView) := by
  have hslots : (List.range maxFramesInFlight).flatMap cleanupSlotTrace =
      [TeardownEvent.destroyImageAvailableSemaphore 0,
       TeardownEvent.destroyRenderFinishedSemaphore 0,
       TeardownEvent.destroyFence 0,
       TeardownEvent.destroyImageAvailableSemaphore 1,
       TeardownEvent.destroyRenderFinishedSemaphore 1,
       TeardownEvent.destroyFence 1] := rfl
  refine ⟨?_, ?_, ?_, ?_, ?_, ?_⟩
  · simp [cleanupTrace, cleanupSwapChainTrace, hslots]
  · simp [cleanupTrace, cleanupSwapChainTrace, hslots]
  · intro i
    simp [cleanupTrace, cleanupSwapChainTrace, hslots]
  · intro i
    simp [cleanupTrace, cleanupSwapChainTrace, hslots]
  · simp [cleanupTrace, cleanupSwapChainTrace, hslots]
  · intro i
    simp [cleanupTrace, cleanupSwapChainTrace, hslots]

end VulkanRS
